import Mathlib

/-!
Verification of the retrieval pipeline of the GCP-RAG-Chatbot backend.

Texts are modelled as `List Char` (Python strings are character sequences),
Python floats as exact rationals `ℚ` with `math.sqrt` kept abstract as a
function parameter `fsqrt : ℚ → ℚ`, Python exceptions as `Except String`,
and potential non-termination of `while` loops as fuel-indexed recursion
returning `Option`.
-/

namespace RagChatbot

/-! ## Python string helpers -/

/-- The ASCII whitespace characters matched by Python's `\s` and stripped by
`str.strip()`: space, tab, newline, carriage return, vertical tab, form feed. -/
def pyWhitespace : List Char := [' ', '\t', '\n', '\r', Char.ofNat 11, Char.ofNat 12]

/-- Whether a character is Python whitespace. -/
def isPySpace (c : Char) : Bool := pyWhitespace.contains c

/-- Python's `str.strip()`: drop leading and trailing whitespace. -/
def pyStrip (l : List Char) : List Char :=
  ((l.dropWhile isPySpace).reverse.dropWhile isPySpace).reverse

/-- Python's `re.sub(r'\s+', ' ', text)`: replace each maximal run of
whitespace characters by a single space (a whitespace character is dropped
when followed by another whitespace character, and otherwise replaced by a
single space). -/
def collapseWs : List Char → List Char
  | [] => []
  | [c] => if isPySpace c then [' '] else [c]
  | c1 :: c2 :: rest =>
    if isPySpace c1 && isPySpace c2 then collapseWs (c2 :: rest)
    else (if isPySpace c1 then ' ' else c1) :: collapseWs (c2 :: rest)

/-- `sanitize_input` from `app/utils/text_processing.py`: if the text is
empty return the empty string, else collapse whitespace runs and strip. -/
def sanitize_input (text : List Char) : List Char :=
  if text = [] then [] else pyStrip (collapseWs text)

/-! ## Chunking (`chunk_text` in `app/utils/text_processing.py`) -/

/-- The sentence-ending markers scanned for when snapping a chunk boundary. -/
def sentence_endings : List (List Char) :=
  [['.', ' '], ['.', '\n'], ['!', ' '], ['!', '\n'], ['?', ' '], ['?', '\n']]

/-- Python slice `text[i : i + n]`. -/
def sliceTake (text : List Char) (i n : ℕ) : List Char := (text.drop i).take n

/-- The first sentence ending (in scan order) matching `text[i : i+len(ending)]`,
mirroring the inner `for ending in sentence_endings` loop. -/
def matchEnding (text : List Char) (i : ℕ) : Option (List Char) :=
  sentence_endings.find? (fun e => sliceTake text i e.length = e)

/-- The scan `for i in range(lo, hi)` of the chunking loop, indexed by a fuel
that bounds the remaining iterations (any fuel at least `hi - i` yields the
loop's exact behaviour): starting from `best = hi` (the raw window end),
update `best` to `i + len(ending)` at an index `i` whose suffix matches a
sentence ending, and break out of the scan as soon as `best < hi` holds after
an index is processed. -/
def scanBreakAux (text : List Char) (hi : ℕ) : ℕ → ℕ → ℕ → ℕ
  | 0, _, best => best
  | fuel + 1, i, best =>
    if i < hi then
      let best' := match matchEnding text i with
        | some e => i + e.length
        | none => best
      if best' < hi then best' else scanBreakAux text hi fuel (i + 1) best'
    else best

/-- The scan `for i in range(i, hi)` of the chunking loop (fuel `hi` always
suffices, since the index starts at `i ≥ 0` and increases each step). -/
def scanBreak (text : List Char) (hi i best : ℕ) : ℕ :=
  scanBreakAux text hi hi i best

/-- One iteration of the chunking `while` loop: from window start `start`,
compute the (possibly boundary-snapped) window end and the next start
`end - overlap` (clamped at `0`, which truncated `ℕ` subtraction performs).
Returns `(end, nextStart)`. -/
def chunkStep (text : List Char) (chunkSize overlap start : ℕ) : ℕ × ℕ :=
  let end0 := start + chunkSize
  let end1 :=
    if end0 < text.length then scanBreak text end0 (max start (end0 - 200)) end0
    else end0
  (end1, end1 - overlap)

/-- The chunking `while start < len(text)` loop, fuel-indexed: `none` means
the fuel ran out (the Python loop would still be running). Each iteration
appends `text[start:end].strip()` when non-empty and advances to
`end - overlap`. -/
def chunkLoop (text : List Char) (chunkSize overlap : ℕ) :
    ℕ → ℕ → List (List Char) → Option (List (List Char))
  | 0, _, _ => none
  | fuel + 1, start, acc =>
    if start < text.length then
      let p := chunkStep text chunkSize overlap start
      let chunk := pyStrip (sliceTake text start (p.1 - start))
      let acc' := if chunk = [] then acc else acc ++ [chunk]
      chunkLoop text chunkSize overlap fuel p.2 acc'
    else some acc

/-- `chunk_text` from `app/utils/text_processing.py`. Empty text yields `[]`;
text no longer than `chunkSize` yields `[text]`; otherwise the windowed loop
runs. The loop is given `len(text) + 1` fuel: the next window start is a
function of the current one alone, so a run of the Python loop either exits
within `len(text)` iterations or revisits a start value and runs forever;
a `none` result therefore means the Python loop never terminates. -/
def chunk_text (text : List Char) (chunkSize overlap : ℕ) :
    Option (List (List Char)) :=
  if text = [] then some []
  else if text.length ≤ chunkSize then some [text]
  else chunkLoop text chunkSize overlap (text.length + 1) 0 []

/-! ## Similarity engine (`app/services/firestore_client.py`) -/

/-- `sum(a * b for a, b in zip(vec1, vec2))`. -/
def dotProduct (v1 v2 : List ℚ) : ℚ := ((v1.zip v2).map (fun p => p.1 * p.2)).sum

/-- `sum(a * a for a in vec)`, the squared magnitude of a vector. -/
def sumSq (v : List ℚ) : ℚ := (v.map (fun a => a * a)).sum

/-- `FirestoreClient.cosine_similarity`. Floats are modelled as exact
rationals and `math.sqrt` as an abstract function `fsqrt`; theorems that
depend on square-root arithmetic take faithfulness hypotheses on `fsqrt` at
the points where it is applied. Raises (returns `.error`) on a length
mismatch; returns `0.0` when either computed magnitude is zero; otherwise
divides the dot product by the product of the magnitudes. -/
def cosine_similarity (fsqrt : ℚ → ℚ) (vec1 vec2 : List ℚ) : Except String ℚ :=
  if vec1.length ≠ vec2.length then .error "Vectors must have the same length"
  else
    let dot := dotProduct vec1 vec2
    let magnitude1 := fsqrt (sumSq vec1)
    let magnitude2 := fsqrt (sumSq vec2)
    if magnitude1 = 0 ∨ magnitude2 = 0 then .ok 0
    else .ok (dot / (magnitude1 * magnitude2))

/-- A stored Firestore document as seen by the similarity search: its text,
an optional embedding (`none` models a record without an `embedding` key)
and an optional `metadata.source_file`. -/
structure DocData where
  text : List Char
  embedding : Option (List ℚ)
  sourceFile : Option String
deriving Repr, DecidableEq

/-- A search result: the document data together with the added `similarity`
score and `doc_id`. -/
structure ScoredDoc where
  data : DocData
  similarity : ℚ
  doc_id : String
deriving Repr, DecidableEq

/-- The body of the candidate loop of `search_similar_documents`: skip
documents whose embedding is missing or empty, score the rest with
`cosine_similarity` (whose dimension-mismatch error propagates out) and
retain those with `similarity >= similarity_threshold`. -/
def scoreDoc (fsqrt : ℚ → ℚ) (query_embedding : List ℚ) (similarity_threshold : ℚ)
    (acc : List ScoredDoc) (d : String × DocData) : Except String (List ScoredDoc) :=
  match d.2.embedding with
  | none => .ok acc
  | some emb =>
    if emb = [] then .ok acc
    else
      match cosine_similarity fsqrt query_embedding emb with
      | .error e => .error e
      | .ok s =>
        if similarity_threshold ≤ s then .ok (acc ++ [⟨d.2, s, d.1⟩]) else .ok acc

/-- The candidate fetch `query.limit(max_documents)` of
`search_similar_documents`: `max_documents` (when truthy: Python
`if max_documents:` treats `0` like `None`) limits the stream to the first
so many documents. -/
def limitDocs (storeDocs : List (String × DocData)) (max_documents : Option ℕ) :
    List (String × DocData) :=
  match max_documents with
  | some m => if m = 0 then storeDocs else storeDocs.take m
  | none => storeDocs

/-- The comparison underlying `scored_docs.sort(key=lambda x: x['similarity'],
reverse=True)`: `x` sorts no later than `y` when `y`'s similarity is at most
`x`'s. -/
def simLe (x y : ScoredDoc) : Bool := y.similarity ≤ x.similarity

/-- `FirestoreClient.search_similar_documents`. The Firestore collection is
modelled as the list `storeDocs` of `(doc_id, data)` pairs in stream order.
Candidates are scored by `scoreDoc`, sorted by similarity descending
(Python's stable `list.sort` with `reverse=True`), and the first `top_k`
are returned. -/
def search_similar_documents (fsqrt : ℚ → ℚ) (storeDocs : List (String × DocData))
    (query_embedding : List ℚ) (top_k : ℕ) (similarity_threshold : ℚ)
    (max_documents : Option ℕ) : Except String (List ScoredDoc) :=
  match (limitDocs storeDocs max_documents).foldlM
      (scoreDoc fsqrt query_embedding similarity_threshold) [] with
  | .error e => .error e
  | .ok scored => .ok ((scored.mergeSort simLe).take top_k)

/-! ## Ingestion pipeline (`app/services/ingestion_service.py`) -/

/-- The record inserted into Firestore for one successfully processed chunk:
text, embedding, and the merged metadata fields the code attaches. -/
structure StoredChunk where
  text : List Char
  embedding : List ℚ
  source_file : String
  chunk_index : ℕ
  total_chunks : ℕ
deriving Repr, DecidableEq

/-- The dictionary returned by `IngestionService.ingest_document`. Keys that
are only present on some paths (`total_chunks`, `errors`, `error`) are
modelled as `Option` fields. -/
structure IngestResult where
  chunks_created : ℕ
  filename : String
  success : Bool
  total_chunks : Option ℕ
  errors : Option (List String)
  error : Option String
deriving Repr, DecidableEq

/-- The per-chunk error message
`f"Error processing chunk {i} from {filename}: {e}"`. -/
def chunkErrMsg (i : ℕ) (filename : String) (e : String) : String :=
  "Error processing chunk " ++ toString i ++ " from " ++ filename ++ ": " ++ e

/-- The state accumulated by the per-chunk loop of `ingest_document`,
together with the observable external effects: the records inserted into the
store and the chunk texts sent to the embedding provider. -/
structure ChunkLoopState where
  chunks_created : ℕ
  errors : List String
  stored : List StoredChunk
  embedRequests : List (List Char)
deriving Repr, DecidableEq

/-- One iteration of the `for i, chunk in enumerate(chunks)` loop of
`ingest_document` (`ic` is the enumerated pair): request an embedding and
insert the record; any failure of either call is caught, its message
recorded, and the loop continues. `embed` and `store` are the external
collaborators (Gemini and Firestore); `total` is `len(chunks)`. -/
def chunkStepF (embed : List Char → Except String (List ℚ))
    (store : StoredChunk → Except String String)
    (filename : String) (total : ℕ)
    (st : ChunkLoopState) (ic : ℕ × List Char) : ChunkLoopState :=
  let attempted := st.embedRequests ++ [ic.2]
  match embed ic.2 with
  | .error e =>
    { st with errors := st.errors ++ [chunkErrMsg ic.1 filename e],
              embedRequests := attempted }
  | .ok emb =>
    let rec_ : StoredChunk := ⟨ic.2, emb, filename, ic.1, total⟩
    match store rec_ with
    | .error e =>
      { st with errors := st.errors ++ [chunkErrMsg ic.1 filename e],
                embedRequests := attempted }
    | .ok _ =>
      { st with chunks_created := st.chunks_created + 1,
                stored := st.stored ++ [rec_],
                embedRequests := attempted }

/-- The `for i, chunk in enumerate(chunks)` loop of `ingest_document`:
processes every chunk independently via `chunkStepF`. -/
def processChunks (embed : List Char → Except String (List ℚ))
    (store : StoredChunk → Except String String)
    (filename : String) (chunks : List (List Char)) : ChunkLoopState :=
  (chunks.enum).foldl (chunkStepF embed store filename chunks.length) ⟨0, [], [], []⟩

/-- Specification-side mirror of the loop: the records of the enumerated
chunks whose embedding and insertion both succeed, in order. -/
def succeededOf (embed : List Char → Except String (List ℚ))
    (store : StoredChunk → Except String String)
    (filename : String) (total : ℕ) (l : List (ℕ × List Char)) : List StoredChunk :=
  l.filterMap (fun ic =>
    match embed ic.2 with
    | .error _ => none
    | .ok emb =>
      match store ⟨ic.2, emb, filename, ic.1, total⟩ with
      | .error _ => none
      | .ok _ => some ⟨ic.2, emb, filename, ic.1, total⟩)

/-- Specification-side mirror of the loop: the error messages of the
enumerated chunks whose embedding or insertion fails, in order. -/
def errorsOf (embed : List Char → Except String (List ℚ))
    (store : StoredChunk → Except String String)
    (filename : String) (total : ℕ) (l : List (ℕ × List Char)) : List String :=
  l.filterMap (fun ic =>
    match embed ic.2 with
    | .error e => some (chunkErrMsg ic.1 filename e)
    | .ok emb =>
      match store ⟨ic.2, emb, filename, ic.1, total⟩ with
      | .error e => some (chunkErrMsg ic.1 filename e)
      | .ok _ => none)

/-- The result dictionary assembled at the end of `ingest_document`:
`success` is `chunks_created > 0` and, when any per-chunk errors occurred,
only the first 5 error messages are attached. -/
def mkIngestResult (filename : String) (chunks : List (List Char))
    (st : ChunkLoopState) : IngestResult :=
  { chunks_created := st.chunks_created,
    filename := filename,
    success := decide (st.chunks_created > 0),
    total_chunks := some chunks.length,
    errors := if st.errors = [] then none else some (st.errors.take 5),
    error := none }

/-- Outcome of running a Python call: it can diverge, raise, or return. -/
inductive PyResult (α : Type) where
  | diverges
  | raises (msg : String)
  | ok (a : α)
deriving Repr, DecidableEq

/-- Default `chunk_size` from `app/config.py`. -/
def defaultChunkSize : ℕ := 1000

/-- Default `chunk_overlap` from `app/config.py`. -/
def defaultChunkOverlap : ℕ := 200

/-- Python `x or default` for an optional numeric argument: `None` and `0`
both fall back to the default. -/
def orDefault (x : Option ℕ) (d : ℕ) : ℕ :=
  match x with
  | none => d
  | some n => if n = 0 then d else n

/-- `IngestionService.ingest_document`, from the extracted text onward.
`extract` is the outcome of `read_document` (its `ValueError` on unsupported
type or decode failure propagates to the caller). The extracted text is
sanitized; if empty, a failure result is returned before any chunking,
embedding, or storing. Otherwise the text is chunked and each chunk embedded
and stored via `processChunks`. Returns the result together with the loop
state carrying the externally observable effects. -/
def ingest_document (embed : List Char → Except String (List ℚ))
    (store : StoredChunk → Except String String)
    (extract : Except String (List Char)) (filename : String)
    (chunk_size chunk_overlap : Option ℕ) :
    PyResult (IngestResult × ChunkLoopState) :=
  match extract with
  | .error e => .raises e
  | .ok raw =>
    let text := sanitize_input raw
    if text = [] ∨ pyStrip text = [] then
      .ok (⟨0, filename, false, none, none,
            some "Document is empty or contains no valid text"⟩, ⟨0, [], [], []⟩)
    else
      match chunk_text text (orDefault chunk_size defaultChunkSize)
          (orDefault chunk_overlap defaultChunkOverlap) with
      | none => .diverges
      | some chunks =>
        let st := processChunks embed store filename chunks
        .ok (mkIngestResult filename chunks st, st)

/-! ## Chat retrieval flow (`app/main.py`, `chat` endpoint) -/

/-- The response model of the `/chat` endpoint. -/
structure ChatResponse where
  answer : String
  message : String
deriving Repr, DecidableEq

/-- An HTTP error raised by the endpoint: status code and detail. -/
structure HTTPError where
  status : ℕ
  detail : String
deriving Repr, DecidableEq

/-- Context assembly: `f"[Document {i} from {source}]:\n{text}"` for each
retrieved document (1-based), joined with blank lines. -/
def buildContext (docs : List ScoredDoc) : String :=
  String.intercalate "\n\n"
    ((docs.enum).map (fun d =>
      "[Document " ++ toString (d.1 + 1) ++ " from " ++
        (d.2.data.sourceFile.getD "document") ++ "]:\n" ++ String.mk d.2.data.text))

/-- The RAG retrieval step of the `chat` handler (the inner `try` of
`app/main.py` lines 160-193): when RAG is enabled and Firestore is
configured, embed the query and search; any failure of either call is caught
and leaves the retrieved documents empty and the context empty. Returns
`(context_text, retrieved_docs)` and never raises. -/
def ragRetrieve (ragEnabled firestoreAvailable : Bool)
    (embedQuery : Except String (List ℚ))
    (search : List ℚ → Except String (List ScoredDoc)) :
    String × List ScoredDoc :=
  if ragEnabled && firestoreAvailable then
    match embedQuery with
    | .error _ => ("", [])
    | .ok qe =>
      match search qe with
      | .error _ => ("", [])
      | .ok docs => (if docs = [] then "" else buildContext docs, docs)
  else ("", [])

/-- The fixed instructions appended to the system prompt when retrieved
context is available. -/
def ragSystemSuffix : String :=
  "\n\nUse the following retrieved documents to answer the user's question. " ++
  "If the documents contain relevant information, use it to provide a comprehensive answer. " ++
  "If the documents don't contain relevant information, answer based on your general knowledge, " ++
  "but mention that the information wasn't found in the provided documents."

/-- The user prompt assembled around the retrieved context. -/
def ragPrompt (contextText message : String) : String :=
  "Context from retrieved documents:\n\n" ++ contextText ++
  "\n\nUser question: " ++ message ++
  "\n\nPlease provide a helpful answer based on the context above."

/-- The `chat` endpoint of `app/main.py`: validation, the graceful-degrading
retrieval step, prompt assembly, and the model call (`generate prompt
systemInstruction`, an external collaborator whose failure the outer `try`
maps to HTTP 500). -/
def chat (message : String) (geminiAvailable ragEnabled firestoreAvailable : Bool)
    (systemPrompt : String)
    (embedQuery : Except String (List ℚ))
    (search : List ℚ → Except String (List ScoredDoc))
    (generate : String → String → Except String String) :
    Except HTTPError ChatResponse :=
  if message.toList = [] ∨ pyStrip message.toList = [] then
    .error ⟨400, "Message cannot be empty"⟩
  else if ¬ geminiAvailable then
    .error ⟨503, "Gemini API is not configured. Please set GEMINI_API_KEY environment variable."⟩
  else
    let ctx := ragRetrieve ragEnabled firestoreAvailable embedQuery search
    let prompts :=
      if ctx.1 ≠ "" then (systemPrompt ++ ragSystemSuffix, ragPrompt ctx.1 message)
      else (systemPrompt, message)
    match generate prompts.2 prompts.1 with
    | .ok answer => .ok ⟨answer, message⟩
    | .error e => .error ⟨500, "Error generating response: " ++ e⟩

/-! ## Concrete inputs used in counterexamples and witnesses -/

/-- A 15-character text with an early sentence boundary. With
`chunk_size = 10`, `overlap = 5` the chunking loop computes `end = 3` and
next start `3 - 5`, clamped to `0`: the window never advances. -/
def loopText : List Char := "a. bcdefghijklm".toList

/-- A 2500-character text whose only sentence-ending marker in the look-back
window `[800, 1000)` of the first chunk starts at character 980. -/
def boundaryText : List Char :=
  List.replicate 980 'a' ++ '.' :: ' ' :: List.replicate 1518 'b'

/-- Five distinct chunk texts for the ingestion partial-failure example. -/
def exampleChunks : List (List Char) :=
  ["c0".toList, "c1".toList, "c2".toList, "c3".toList, "c4".toList]

/-- An embedding provider that fails exactly on the chunk at index 2 of
`exampleChunks` and returns a fixed vector otherwise. -/
def exampleEmbed (c : List Char) : Except String (List ℚ) :=
  if c = "c2".toList then .error "embedding failed" else .ok [1]

/-- A store whose insertions always succeed. -/
def exampleStore (_c : StoredChunk) : Except String String := .ok "doc-id"

/-- A two-candidate store for the search witness: one normal document, one
with an empty embedding and one with no embedding at all. -/
def exampleStoreDocs : List (String × DocData) :=
  [("d1", ⟨"one".toList, some [1, 0], some "a.txt"⟩),
   ("d2", ⟨"two".toList, some [], none⟩),
   ("d3", ⟨"three".toList, none, none⟩),
   ("d4", ⟨"four".toList, some [0, 1], some "b.txt"⟩)]

/-- The result of the search witness query on `exampleStoreDocs`: only the
first document scores at or above the threshold `1/2`. -/
def searchWitnessResult : List ScoredDoc :=
  [⟨⟨"one".toList, some [1, 0], some "a.txt"⟩, 1, "d1"⟩]

/-! ## Helper lemmas: chunking -/

/-- One iteration of the chunking loop on `loopText` with `chunk_size = 10`,
`overlap = 5`: the boundary snap sets `end = 3` and the next start
`3 - 5` clamps back to `0`. -/
lemma chunkStep_loopText : chunkStep loopText 10 5 0 = (3, 0) := by decide

/-- On `loopText` with `chunk_size = 10`, `overlap = 5`, the chunking loop
exhausts any amount of fuel: the window start is `0` at every iteration. -/
lemma chunkLoop_loopText_none : ∀ fuel acc, chunkLoop loopText 10 5 fuel 0 acc = none := by
  intro fuel
  induction fuel with
  | zero => intro acc; rfl
  | succ n ih =>
    intro acc
    have hlen : 0 < loopText.length := by decide
    simp only [chunkLoop, hlen, if_pos, chunkStep_loopText]
    exact ih _

/-- In the scan, an index at or beyond the bound leaves `best` unchanged. -/
lemma scanBreakAux_of_ge (text : List Char) (hi : ℕ) :
    ∀ fuel i best, hi ≤ i → scanBreakAux text hi fuel i best = best := by
  intro fuel
  cases fuel with
  | zero => intro i best _; rfl
  | succ n =>
    intro i best h
    simp only [scanBreakAux]
    rw [if_neg (by omega)]

/-- If the first matching index in the scanned range is `k`, with a marker
of length `len` satisfying `k + len < hi`, then the scan started at any
`i ≤ k` with enough fuel returns `k + len`. -/
lemma scanBreakAux_finds (text : List Char) (hi k : ℕ) (e : List Char)
    (hke : matchEnding text k = some e) (hlt : k + e.length < hi) :
    ∀ fuel i, i ≤ k → hi ≤ fuel + i →
      (∀ j, i ≤ j → j < k → matchEnding text j = none) →
      scanBreakAux text hi fuel i hi = k + e.length := by
  intro fuel
  induction fuel with
  | zero =>
    intro i hik hfuel _
    omega
  | succ n ih =>
    intro i hik hfuel hnone
    have hihi : i < hi := by omega
    rcases Nat.lt_or_ge i k with hik' | hik'
    · have hmi : matchEnding text i = none := hnone i le_rfl hik'
      simp only [scanBreakAux, if_pos hihi, hmi]
      rw [if_neg (by omega)]
      exact ih (i + 1) (by omega) (by omega) (fun j h1 h2 => hnone j (by omega) h2)
    · have hik'' : i = k := by omega
      subst hik''
      simp only [scanBreakAux, if_pos hihi, hke]
      rw [if_pos hlt]

/-- Every sentence-ending marker has length 2. -/
lemma sentence_endings_length : ∀ e ∈ sentence_endings, e.length = 2 := by decide

/-- A successful `matchEnding` returns one of the sentence endings. -/
lemma matchEnding_mem {text : List Char} {i : ℕ} {e : List Char}
    (h : matchEnding text i = some e) : e ∈ sentence_endings :=
  List.mem_of_find?_eq_some h

/-- The first-chunk window computation of the concrete chunking example: a
text of length 2500 whose only marker in the look-back window `[800, 1000)`
starts at 980 snaps the window end to 982, and the next start is 782. -/
lemma chunkStep_boundary (text : List Char) (hlen : text.length = 2500)
    (e : List Char) (h980 : matchEnding text 980 = some e)
    (hnone : ∀ j, 800 ≤ j → j < 980 → matchEnding text j = none) :
    chunkStep text 1000 200 0 = (982, 782) := by
  have he2 : e.length = 2 := sentence_endings_length e (matchEnding_mem h980)
  have hscan : scanBreakAux text 1000 1000 800 1000 = 982 := by
    have := scanBreakAux_finds text 1000 980 e h980 (by omega) 1000 800
      (by omega) (by omega) (fun j h1 h2 => hnone j h1 h2)
    omega
  simp only [chunkStep, scanBreak, hlen]
  norm_num
  exact ⟨hscan, by omega⟩

/-- `boundaryText` has 2500 characters. -/
lemma boundaryText_length : boundaryText.length = 2500 := by
  rw [boundaryText, List.length_append, List.length_replicate,
    List.length_cons, List.length_cons, List.length_replicate]

/-- In `boundaryText`, the slice of length 2 at any index below 980 starts
with the letter `'a'`. -/
lemma boundaryText_slice_below (j : ℕ) (hj : j < 980) :
    ∃ t, sliceTake boundaryText j 2 = 'a' :: t := by
  have hdrop : boundaryText.drop j =
      List.replicate (980 - j) 'a' ++ '.' :: ' ' :: List.replicate 1518 'b' := by
    unfold boundaryText
    rw [List.drop_append_of_le_length (by rw [List.length_replicate]; omega),
      List.drop_replicate]
  have hrep : List.replicate (980 - j) 'a' = 'a' :: List.replicate (979 - j) 'a' := by
    have : 980 - j = (979 - j) + 1 := by omega
    rw [this, List.replicate_succ]
  refine ⟨List.take 1 (List.replicate (979 - j) 'a' ++ '.' :: ' ' :: List.replicate 1518 'b'), ?_⟩
  unfold sliceTake
  rw [hdrop, hrep]
  rfl

/-- No sentence-ending marker occurs in `boundaryText` before index 980. -/
lemma boundaryText_no_match (j : ℕ) (hj : j < 980) :
    matchEnding boundaryText j = none := by
  obtain ⟨t, ht⟩ := boundaryText_slice_below j hj
  unfold matchEnding
  rw [List.find?_eq_none]
  intro e he
  fin_cases he <;> simp only [List.length_cons, List.length_nil, ht,
    decide_eq_true_eq] <;> intro hcontra <;> exact absurd (List.head_eq_of_cons_eq hcontra) (by decide)

/-- The sentence-ending marker `". "` occurs in `boundaryText` at index 980. -/
lemma boundaryText_match_980 : matchEnding boundaryText 980 = some ['.', ' '] := by
  have hdrop : boundaryText.drop 980 = '.' :: ' ' :: List.replicate 1518 'b' := by
    unfold boundaryText
    rw [List.drop_append_of_le_length (by rw [List.length_replicate]),
      List.drop_replicate]
    rfl
  have hslice : sliceTake boundaryText 980 2 = ['.', ' '] := by
    rw [sliceTake, hdrop]
    rfl
  unfold matchEnding sentence_endings
  rw [List.find?_cons_of_pos]
  simp only [List.length_cons, List.length_nil, hslice, decide_eq_true_eq]

/-! ## Helper lemmas: vector arithmetic -/

lemma sumSq_cons (a : ℚ) (t : List ℚ) : sumSq (a :: t) = a * a + sumSq t := by
  simp [sumSq]

lemma dotProduct_cons (a b : ℚ) (t1 t2 : List ℚ) :
    dotProduct (a :: t1) (b :: t2) = a * b + dotProduct t1 t2 := by
  simp [dotProduct]

lemma sumSq_nonneg (v : List ℚ) : 0 ≤ sumSq v := by
  induction v with
  | nil => simp [sumSq]
  | cons a t ih =>
    rw [sumSq_cons]
    nlinarith [mul_self_nonneg a]

/-- The arithmetic-geometric step of the Cauchy-Schwarz induction. -/
lemma two_mul_dot_le (a b d S1 S2 : ℚ) (h : d ^ 2 ≤ S1 * S2) (h1 : 0 ≤ S1) (h2 : 0 ≤ S2) :
    2 * (a * b * d) ≤ a ^ 2 * S2 + b ^ 2 * S1 := by
  rcases le_or_lt (a * b * d) 0 with hneg | hpos
  · have hP : 0 ≤ a ^ 2 * S2 + b ^ 2 * S1 := by positivity
    linarith
  · have hx : 0 ≤ 2 * (a * b * d) := by linarith
    have hP : 0 ≤ a ^ 2 * S2 + b ^ 2 * S1 := by positivity
    have hsq : (2 * (a * b * d)) ^ 2 ≤ (a ^ 2 * S2 + b ^ 2 * S1) ^ 2 := by
      nlinarith [sq_nonneg (a ^ 2 * S2 - b ^ 2 * S1),
        mul_nonneg (mul_nonneg (sq_nonneg a) (sq_nonneg b)) (sub_nonneg.mpr h)]
    exact le_of_pow_le_pow_left₀ two_ne_zero hP hsq

/-- Cauchy-Schwarz for the list dot product. -/
lemma dotProduct_sq_le_sumSq_mul_sumSq :
    ∀ v1 v2 : List ℚ, (dotProduct v1 v2) ^ 2 ≤ sumSq v1 * sumSq v2 := by
  intro v1
  induction v1 with
  | nil =>
    intro v2
    simp [dotProduct, sumSq]
  | cons a t1 ih =>
    intro v2
    cases v2 with
    | nil =>
      have := sumSq_nonneg (a :: t1)
      simp [dotProduct, sumSq]
    | cons b t2 =>
      have h := ih t2
      have h1 := sumSq_nonneg t1
      have h2 := sumSq_nonneg t2
      have key := two_mul_dot_le a b (dotProduct t1 t2) (sumSq t1) (sumSq t2) h h1 h2
      rw [dotProduct_cons, sumSq_cons, sumSq_cons]
      nlinarith [key, h]

lemma dotProduct_self (v : List ℚ) : dotProduct v v = sumSq v := by
  induction v with
  | nil => rfl
  | cons a t ih => rw [dotProduct_cons, sumSq_cons, ih]

lemma sumSq_eq_zero_iff (v : List ℚ) : sumSq v = 0 ↔ ∀ x ∈ v, x = 0 := by
  induction v with
  | nil => simp [sumSq]
  | cons a t ih =>
    rw [sumSq_cons]
    constructor
    · intro h x hx
      have h1 := sumSq_nonneg t
      have ha : a = 0 := by nlinarith [mul_self_nonneg a]
      rcases List.mem_cons.mp hx with hx' | hx'
      · exact hx' ▸ ha
      · exact ih.mp (by nlinarith [mul_self_nonneg a]) x hx'
    · intro h
      have ha : a = 0 := h a (List.mem_cons_self a t)
      have ht : sumSq t = 0 := ih.mpr (fun x hx => h x (List.mem_cons_of_mem a hx))
      rw [ha, ht]
      ring

/-! ## Claim theorems: chunking -/

/-- C1: the claim that `chunk_text` terminates for every text and every valid
parameter pair (`chunk_size > 0`, `0 <= overlap < chunk_size`) within
`ceil(len(text) / (chunk_size - overlap))` iterations is FALSE: on the
15-character `loopText` with `chunk_size = 10` and `overlap = 5` (valid
parameters), the boundary snap sets the window end to 3 and the next start
`3 - 5` clamps back to 0, so the window never advances and the loop runs
forever (the fuel-indexed loop returns `none` for every fuel). The guard in
the code (`if start >= len(text): break`) does not catch non-advancing
windows. -/
theorem chunk_text_nonterminating_on_valid_params :
    (0 < 10 ∧ 5 < 10 ∧ 10 < loopText.length) ∧
    (∀ fuel acc, chunkLoop loopText 10 5 fuel 0 acc = none) ∧
    chunk_text loopText 10 5 = none := by
  refine ⟨by decide, chunkLoop_loopText_none, ?_⟩
  exact chunkLoop_loopText_none 16 []

/-- C4 counterexample: for the empty text (whose length is at most any
chunk size), `chunk_text` returns the empty list, not the one-element list
containing the empty string as the claim demands. -/
theorem chunk_text_empty_not_singleton :
    chunk_text [] 5 1 = some [] ∧ chunk_text [] 5 1 ≠ some [[]] := by
  exact ⟨by decide, by decide⟩

/-- C4 (amended to non-empty texts): for every non-empty text with
`len(text) <= chunk_size` and any overlap, `chunk_text` returns the
single-element list `[text]`. -/
theorem chunk_text_short_is_singleton (text : List Char) (chunkSize overlap : ℕ)
    (hne : text ≠ []) (hlen : text.length ≤ chunkSize) :
    chunk_text text chunkSize overlap = some [text] := by
  simp [chunk_text, hne, hlen]

/-- Witness for C4 (amended): the three-character text `"abc"` with
`chunk_size = 5`, `overlap = 2`. -/
theorem chunk_text_short_is_singleton_witness :
    ("abc".toList ≠ [] ∧ ("abc".toList).length ≤ 5) ∧
      chunk_text "abc".toList 5 2 = some ["abc".toList] :=
  ⟨⟨by decide, by decide⟩,
    chunk_text_short_is_singleton "abc".toList 5 2 (by decide) (by decide)⟩

/-- C7: with `chunk_size = 1000` and `overlap = 200` on a 2500-character
text whose only sentence-boundary marker inside the look-back window
`[800, 1000)` starts at character 980, the first chunk's window ends at
character 982 (just past the two-character marker) and the second chunk's
window starts at character `982 - 200 = 782`. -/
theorem chunk_window_boundary_example (text : List Char) (hlen : text.length = 2500)
    (e : List Char) (h980 : matchEnding text 980 = some e)
    (hnone : ∀ j, 800 ≤ j → j < 980 → matchEnding text j = none) :
    chunkStep text 1000 200 0 = (982, 782) :=
  chunkStep_boundary text hlen e h980 hnone

/-- Witness for C7: the concrete 2500-character text `boundaryText`, whose
only marker in `[800, 1000)` is the `". "` at index 980. -/
theorem chunk_window_boundary_example_witness :
    (boundaryText.length = 2500 ∧ matchEnding boundaryText 980 = some ['.', ' '] ∧
      (∀ j, 800 ≤ j → j < 980 → matchEnding boundaryText j = none)) ∧
    chunkStep boundaryText 1000 200 0 = (982, 782) :=
  ⟨⟨boundaryText_length, boundaryText_match_980, fun j _ hj => boundaryText_no_match j hj⟩,
    chunk_window_boundary_example boundaryText boundaryText_length ['.', ' ']
      boundaryText_match_980 (fun j _ hj => boundaryText_no_match j hj)⟩

/-- C10: for the empty input text and every `chunk_size` and `overlap`,
`chunk_text` returns the empty list of chunks, not a one-element list
containing the empty string. -/
theorem chunk_text_empty_input (chunkSize overlap : ℕ) :
    chunk_text [] chunkSize overlap = some [] ∧
    chunk_text [] chunkSize overlap ≠ some [[]] := by
  refine ⟨by simp [chunk_text], ?_⟩
  simp [chunk_text]

/-! ## Claim theorems: cosine similarity -/

/-- C5: `cosine_similarity` fails with the dimension-mismatch error exactly
when the vector lengths differ (never silently skipped); for equal-length
vectors it returns `0.0` whenever either vector has zero magnitude (zero sum
of squares — the guard fires because `sqrt 0 = 0`, so no division happens),
and otherwise returns the dot product divided by the product of the
magnitudes. -/
theorem cosine_similarity_contract (fsqrt : ℚ → ℚ) (hf0 : fsqrt 0 = 0) (v1 v2 : List ℚ) :
    ((∃ msg, cosine_similarity fsqrt v1 v2 = .error msg) ↔ v1.length ≠ v2.length)
    ∧ (v1.length = v2.length → sumSq v1 = 0 ∨ sumSq v2 = 0 →
        cosine_similarity fsqrt v1 v2 = .ok 0)
    ∧ (v1.length = v2.length → fsqrt (sumSq v1) ≠ 0 → fsqrt (sumSq v2) ≠ 0 →
        cosine_similarity fsqrt v1 v2 =
          .ok (dotProduct v1 v2 / (fsqrt (sumSq v1) * fsqrt (sumSq v2)))) := by
  refine ⟨⟨?_, ?_⟩, ?_, ?_⟩
  · rintro ⟨msg, hmsg⟩
    intro hlen
    rw [cosine_similarity, if_neg (by simp [hlen])] at hmsg
    by_cases hz : fsqrt (sumSq v1) = 0 ∨ fsqrt (sumSq v2) = 0 <;>
      simp [hz] at hmsg
  · intro hlen
    exact ⟨"Vectors must have the same length", by rw [cosine_similarity, if_pos hlen]⟩
  · intro hlen hz
    have hz' : fsqrt (sumSq v1) = 0 ∨ fsqrt (sumSq v2) = 0 := by
      rcases hz with hz | hz
      · exact Or.inl (by rw [hz, hf0])
      · exact Or.inr (by rw [hz, hf0])
    rw [cosine_similarity, if_neg (by simp [hlen])]
    simp [hz']
  · intro hlen h1 h2
    have hz : ¬ (fsqrt (sumSq v1) = 0 ∨ fsqrt (sumSq v2) = 0) := by
      rintro (h | h)
      · exact h1 h
      · exact h2 h
    rw [cosine_similarity, if_neg (by simp [hlen])]
    simp [hz]

/-- Witness for C5: `fsqrt` instantiated with the identity (correct at `0`),
vectors `[1]` and `[1, 2]`. -/
theorem cosine_similarity_contract_witness :
    ((fun x : ℚ => x) 0 = 0) ∧
    (((∃ msg, cosine_similarity (fun x : ℚ => x) [1] [1, 2] = .error msg) ↔
        ([1] : List ℚ).length ≠ ([1, 2] : List ℚ).length)
      ∧ (([1] : List ℚ).length = ([1, 2] : List ℚ).length →
          sumSq [1] = 0 ∨ sumSq [1, 2] = 0 →
          cosine_similarity (fun x : ℚ => x) [1] [1, 2] = .ok 0)
      ∧ (([1] : List ℚ).length = ([1, 2] : List ℚ).length →
          (fun x : ℚ => x) (sumSq [1]) ≠ 0 → (fun x : ℚ => x) (sumSq [1, 2]) ≠ 0 →
          cosine_similarity (fun x : ℚ => x) [1] [1, 2] =
            .ok (dotProduct [1] [1, 2] /
              ((fun x : ℚ => x) (sumSq [1]) * (fun x : ℚ => x) (sumSq [1, 2]))))) :=
  ⟨rfl, cosine_similarity_contract (fun x => x) rfl [1] [1, 2]⟩

/-- C9: under faithfulness of `fsqrt` at the two squared magnitudes
(nonnegative square roots whose square gives back the argument), every value
returned by `cosine_similarity` on equal-length vectors lies in `[-1, 1]`;
the value is `0` when either vector is all-zero; and the similarity of a
non-zero vector with itself is exactly `1`. -/
theorem cosine_similarity_bounds (fsqrt : ℚ → ℚ) (a b : List ℚ)
    (hlen : a.length = b.length)
    (ha2 : fsqrt (sumSq a) ^ 2 = sumSq a) (ha0 : 0 ≤ fsqrt (sumSq a))
    (hb2 : fsqrt (sumSq b) ^ 2 = sumSq b) (hb0 : 0 ≤ fsqrt (sumSq b)) :
    (∀ r, cosine_similarity fsqrt a b = .ok r → -1 ≤ r ∧ r ≤ 1)
    ∧ ((∀ x ∈ a, x = 0) ∨ (∀ x ∈ b, x = 0) → cosine_similarity fsqrt a b = .ok 0)
    ∧ ((¬ ∀ x ∈ a, x = 0) → cosine_similarity fsqrt a a = .ok 1) := by
  refine ⟨?_, ?_, ?_⟩
  · intro r hr
    rw [cosine_similarity, if_neg (by simp [hlen])] at hr
    by_cases hz : fsqrt (sumSq a) = 0 ∨ fsqrt (sumSq b) = 0
    · simp [hz] at hr
      constructor <;> rw [← hr] <;> norm_num
    · simp [hz] at hr
      push_neg at hz
      have hapos : 0 < fsqrt (sumSq a) := lt_of_le_of_ne ha0 (Ne.symm hz.1)
      have hbpos : 0 < fsqrt (sumSq b) := lt_of_le_of_ne hb0 (Ne.symm hz.2)
      have hP : 0 < fsqrt (sumSq a) * fsqrt (sumSq b) := mul_pos hapos hbpos
      have hcs : (dotProduct a b) ^ 2 ≤ (fsqrt (sumSq a) * fsqrt (sumSq b)) ^ 2 := by
        rw [mul_pow, ha2, hb2]
        exact dotProduct_sq_le_sumSq_mul_sumSq a b
      have hub : dotProduct a b ≤ fsqrt (sumSq a) * fsqrt (sumSq b) := by nlinarith
      have hlb : -(fsqrt (sumSq a) * fsqrt (sumSq b)) ≤ dotProduct a b := by nlinarith
      rw [← hr]
      constructor
      · rw [le_div_iff₀ hP]
        linarith
      · rw [div_le_one hP]
        exact hub
  · intro hzero
    have hz : fsqrt (sumSq a) = 0 ∨ fsqrt (sumSq b) = 0 := by
      rcases hzero with hzero | hzero
      · have : sumSq a = 0 := (sumSq_eq_zero_iff a).mpr hzero
        exact Or.inl (pow_eq_zero_iff two_ne_zero |>.mp (by rw [ha2, this]))
      · have : sumSq b = 0 := (sumSq_eq_zero_iff b).mpr hzero
        exact Or.inr (pow_eq_zero_iff two_ne_zero |>.mp (by rw [hb2, this]))
    rw [cosine_similarity, if_neg (by simp [hlen])]
    simp [hz]
  · intro hnz
    have hs : sumSq a ≠ 0 := fun h => hnz ((sumSq_eq_zero_iff a).mp h)
    have hf : fsqrt (sumSq a) ≠ 0 := fun h => hs (by rw [← ha2, h]; ring)
    have hz : ¬ (fsqrt (sumSq a) = 0 ∨ fsqrt (sumSq a) = 0) := by
      rintro (h | h) <;> exact hf h
    have hmm : fsqrt (sumSq a) * fsqrt (sumSq a) = sumSq a := by
      rw [← pow_two]
      exact ha2
    have hval : dotProduct a a / (fsqrt (sumSq a) * fsqrt (sumSq a)) = 1 := by
      rw [dotProduct_self, hmm, div_self hs]
    simp [cosine_similarity, hf, hval]

/-- Witness for C9: `fsqrt` instantiated with the identity, which is a
correct square root at `sumSq [1] = 1`, on the non-zero vector `[1]`. -/
theorem cosine_similarity_bounds_witness :
    (([1] : List ℚ).length = ([1] : List ℚ).length ∧
      (fun x : ℚ => x) (sumSq [1]) ^ 2 = sumSq [1] ∧ (0:ℚ) ≤ (fun x : ℚ => x) (sumSq [1])) ∧
    ((∀ r, cosine_similarity (fun x : ℚ => x) [1] [1] = .ok r → -1 ≤ r ∧ r ≤ 1)
      ∧ ((∀ x ∈ ([1] : List ℚ), x = 0) ∨ (∀ x ∈ ([1] : List ℚ), x = 0) →
          cosine_similarity (fun x : ℚ => x) [1] [1] = .ok 0)
      ∧ ((¬ ∀ x ∈ ([1] : List ℚ), x = 0) →
          cosine_similarity (fun x : ℚ => x) [1] [1] = .ok 1)) :=
  ⟨⟨rfl, by norm_num [sumSq], by norm_num [sumSq]⟩,
    cosine_similarity_bounds (fun x => x) [1] [1] rfl
      (by norm_num [sumSq]) (by norm_num [sumSq])
      (by norm_num [sumSq]) (by norm_num [sumSq])⟩

/-! ## Helper lemmas: similarity search -/

/-- Everything accumulated by the candidate-scoring fold beyond the initial
accumulator meets the retention conditions: similarity at least the
threshold, and a present, non-empty embedding. -/
lemma foldlM_scoreDoc_mem (fsqrt : ℚ → ℚ) (qe : List ℚ) (t : ℚ) :
    ∀ (docs : List (String × DocData)) (acc out : List ScoredDoc),
      docs.foldlM (scoreDoc fsqrt qe t) acc = .ok out →
      ∀ x ∈ out, x ∈ acc ∨
        (t ≤ x.similarity ∧ ∃ emb, x.data.embedding = some emb ∧ emb ≠ []) := by
  intro docs
  induction docs with
  | nil =>
    intro acc out h x hx
    rw [List.foldlM_nil] at h
    have : acc = out := Except.ok.inj h
    subst this
    exact Or.inl hx
  | cons d rest ih =>
    intro acc out h x hx
    rw [List.foldlM_cons] at h
    cases hd : scoreDoc fsqrt qe t acc d with
    | error e =>
      rw [hd] at h
      simp [Bind.bind, Except.bind] at h
    | ok acc' =>
      rw [hd] at h
      have h' : rest.foldlM (scoreDoc fsqrt qe t) acc' = .ok out := by
        simpa [Bind.bind, Except.bind] using h
      rcases ih acc' out h' x hx with hmem | hP
      · -- x came through the accumulator: analyze this iteration of scoreDoc
        unfold scoreDoc at hd
        rcases hemb : d.2.embedding with _ | emb
        · simp only [hemb, Except.ok.injEq] at hd
          subst hd
          exact Or.inl hmem
        · by_cases he : emb = []
          · simp only [hemb, he, if_true, Except.ok.injEq] at hd
            subst hd
            exact Or.inl hmem
          · simp only [hemb, he, if_false, if_neg] at hd
            cases hc : cosine_similarity fsqrt qe emb with
            | error e =>
              simp only [hc] at hd
              exact Except.noConfusion hd
            | ok s =>
              simp only [hc] at hd
              by_cases ht : t ≤ s
              · rw [if_pos ht] at hd
                have hd' : acc ++ [⟨d.2, s, d.1⟩] = acc' := Except.ok.inj hd
                subst hd'
                rcases List.mem_append.mp hmem with hmem' | hmem'
                · exact Or.inl hmem'
                · have hx' : x = ⟨d.2, s, d.1⟩ := by simpa using hmem'
                  subst hx'
                  exact Or.inr ⟨ht, emb, hemb, he⟩
              · rw [if_neg ht] at hd
                have hd' : acc = acc' := Except.ok.inj hd
                subst hd'
                exact Or.inl hmem
      · exact Or.inr hP

/-- The descending similarity comparison is transitive. -/
lemma simLe_trans : ∀ a b c : ScoredDoc,
    simLe a b = true → simLe b c = true → simLe a c = true := by
  intro a b c h1 h2
  simp only [simLe, decide_eq_true_eq] at h1 h2 ⊢
  exact le_trans h2 h1

/-- The descending similarity comparison is total. -/
lemma simLe_total : ∀ a b : ScoredDoc, (simLe a b || simLe b a) = true := by
  intro a b
  simp only [simLe, Bool.or_eq_true, decide_eq_true_eq]
  exact le_total b.similarity a.similarity

/-- Evaluation of the search witness query: with the constant square root
`1`, query `[1, 0]`, threshold `1/2` and `top_k = 5` on `exampleStoreDocs`,
only the first document is retained (score `1`); the empty-embedding and
missing-embedding documents are skipped and the orthogonal one (score `0`)
is filtered by the threshold. -/
lemma search_example_eval :
    search_similar_documents (fun _ => (1 : ℚ)) exampleStoreDocs [1, 0] 5 (1/2) none =
      .ok searchWitnessResult := by
  have hfold : (limitDocs exampleStoreDocs none).foldlM
      (scoreDoc (fun _ => (1 : ℚ)) [1, 0] (1/2)) [] = .ok searchWitnessResult := by
    norm_num [limitDocs, exampleStoreDocs, List.foldlM_cons, List.foldlM_nil,
      scoreDoc, cosine_similarity, dotProduct, sumSq, searchWitnessResult,
      Bind.bind, Except.bind, List.cons_ne_nil, pure, Except.pure]
  unfold search_similar_documents
  rw [hfold]
  show Except.ok ((searchWitnessResult.mergeSort simLe).take 5) =
    Except.ok searchWitnessResult
  rw [searchWitnessResult, List.mergeSort_singleton]
  rfl

/-! ## Claim theorems: similarity search -/

/-- C2: whenever `search_similar_documents` succeeds, its result contains no
entry scoring strictly below the threshold, has at most `top_k` entries, is
sorted by score descending, and contains no candidate whose stored embedding
is missing or empty (in particular such candidates never occupy a `top_k`
slot). -/
theorem search_similar_documents_ranking (fsqrt : ℚ → ℚ)
    (storeDocs : List (String × DocData)) (query_embedding : List ℚ)
    (top_k : ℕ) (similarity_threshold : ℚ) (max_documents : Option ℕ)
    (res : List ScoredDoc)
    (hres : search_similar_documents fsqrt storeDocs query_embedding top_k
      similarity_threshold max_documents = .ok res) :
    (∀ x ∈ res, similarity_threshold ≤ x.similarity)
    ∧ res.length ≤ top_k
    ∧ res.Pairwise (fun x y => y.similarity ≤ x.similarity)
    ∧ (∀ x ∈ res, ∃ emb, x.data.embedding = some emb ∧ emb ≠ []) := by
  unfold search_similar_documents at hres
  cases hf : (limitDocs storeDocs max_documents).foldlM
      (scoreDoc fsqrt query_embedding similarity_threshold) [] with
  | error e =>
    rw [hf] at hres
    exact absurd hres (by simp)
  | ok scored =>
    rw [hf] at hres
    have hres' : res = (scored.mergeSort simLe).take top_k := by
      have := hres
      simp only [Except.ok.injEq] at this
      exact this.symm
    subst hres'
    have hmem : ∀ x ∈ (scored.mergeSort simLe).take top_k, x ∈ scored := by
      intro x hx
      exact List.mem_mergeSort.mp (List.take_subset _ _ hx)
    have hP : ∀ x ∈ scored, similarity_threshold ≤ x.similarity ∧
        ∃ emb, x.data.embedding = some emb ∧ emb ≠ [] := by
      intro x hx
      rcases foldlM_scoreDoc_mem fsqrt query_embedding similarity_threshold
        _ [] scored hf x hx with h | h
      · simp at h
      · exact h
    refine ⟨fun x hx => (hP x (hmem x hx)).1, List.length_take_le _ _, ?_,
      fun x hx => (hP x (hmem x hx)).2⟩
    have hsorted := List.sorted_mergeSort simLe_trans simLe_total scored
    have hpair := List.Pairwise.sublist (List.take_sublist top_k _) hsorted
    exact hpair.imp (fun h => by simpa [simLe] using h)

/-- Witness for C2: the concrete query of `search_example_eval`. -/
theorem search_similar_documents_ranking_witness :
    (search_similar_documents (fun _ => (1 : ℚ)) exampleStoreDocs [1, 0] 5 (1/2) none =
        .ok searchWitnessResult) ∧
    ((∀ x ∈ searchWitnessResult, (1/2 : ℚ) ≤ x.similarity)
      ∧ searchWitnessResult.length ≤ 5
      ∧ searchWitnessResult.Pairwise (fun x y => y.similarity ≤ x.similarity)
      ∧ (∀ x ∈ searchWitnessResult, ∃ emb, x.data.embedding = some emb ∧ emb ≠ [])) :=
  ⟨search_example_eval,
    search_similar_documents_ranking _ _ _ _ _ _ _ search_example_eval⟩

/-! ## Helper lemmas: ingestion -/

/-- Full characterization of the per-chunk loop by a single fold identity:
the final state appends, to the initial one, the successful records, the
failure messages, and one embedding request per chunk. -/
lemma foldl_chunkStepF (embed : List Char → Except String (List ℚ))
    (store : StoredChunk → Except String String) (filename : String) (total : ℕ) :
    ∀ (l : List (ℕ × List Char)) (st : ChunkLoopState),
      l.foldl (chunkStepF embed store filename total) st =
        ⟨st.chunks_created + (succeededOf embed store filename total l).length,
         st.errors ++ errorsOf embed store filename total l,
         st.stored ++ succeededOf embed store filename total l,
         st.embedRequests ++ l.map Prod.snd⟩ := by
  intro l
  induction l with
  | nil =>
    intro st
    cases st
    simp [succeededOf, errorsOf]
  | cons ic rest ih =>
    intro st
    rw [List.foldl_cons]
    cases he : embed ic.2 with
    | error e =>
      have hstep : chunkStepF embed store filename total st ic =
          { st with errors := st.errors ++ [chunkErrMsg ic.1 filename e],
                    embedRequests := st.embedRequests ++ [ic.2] } := by
        simp only [chunkStepF, he]
      rw [hstep, ih]
      simp only [succeededOf, errorsOf, List.filterMap_cons, he, List.map_cons]
      simp [succeededOf, errorsOf]
    | ok emb =>
      cases hs : store ⟨ic.2, emb, filename, ic.1, total⟩ with
      | error e =>
        have hstep : chunkStepF embed store filename total st ic =
            { st with errors := st.errors ++ [chunkErrMsg ic.1 filename e],
                      embedRequests := st.embedRequests ++ [ic.2] } := by
          simp only [chunkStepF, he, hs]
        rw [hstep, ih]
        simp only [succeededOf, errorsOf, List.filterMap_cons, he, hs, List.map_cons]
        simp [succeededOf, errorsOf]
      | ok did =>
        have hstep : chunkStepF embed store filename total st ic =
            { st with chunks_created := st.chunks_created + 1,
                      stored := st.stored ++ [⟨ic.2, emb, filename, ic.1, total⟩],
                      embedRequests := st.embedRequests ++ [ic.2] } := by
          simp only [chunkStepF, he, hs]
        rw [hstep, ih]
        simp only [succeededOf, errorsOf, List.filterMap_cons, he, hs, List.map_cons]
        simp [ChunkLoopState.mk.injEq, List.append_assoc, List.length_cons]
        omega

/-- Every enumerated chunk contributes either a stored record or an error
message, so the two mirror lists partition the chunk list. -/
lemma succeededOf_errorsOf_length (embed : List Char → Except String (List ℚ))
    (store : StoredChunk → Except String String) (filename : String) (total : ℕ) :
    ∀ l : List (ℕ × List Char),
      (succeededOf embed store filename total l).length +
        (errorsOf embed store filename total l).length = l.length := by
  intro l
  induction l with
  | nil => rfl
  | cons ic rest ih =>
    have ih' := ih
    simp only [succeededOf, errorsOf] at ih'
    cases he : embed ic.2 with
    | error e =>
      simp only [succeededOf, errorsOf, List.filterMap_cons, he, List.length_cons]
      omega
    | ok emb =>
      cases hs : store ⟨ic.2, emb, filename, ic.1, total⟩ with
      | error e =>
        simp only [succeededOf, errorsOf, List.filterMap_cons, he, hs, List.length_cons]
        omega
      | ok did =>
        simp only [succeededOf, errorsOf, List.filterMap_cons, he, hs, List.length_cons]
        omega

/-! ## Claim theorems: ingestion -/

/-- C3: a per-chunk failure does not abort the ingestion loop — every chunk
is sent to the embedding provider; `chunks_created` equals the number of
successfully stored chunks; `success` is `chunks_created > 0`; the attached
error list is the first (at most 5) of the per-chunk failure messages.
In the concrete 5-chunk example where embedding fails only on chunk index 2,
the result has `chunks_created = 4`, `success = true`, and the single
recorded error references chunk 2. -/
theorem ingestion_partial_failure_isolation
    (embed : List Char → Except String (List ℚ))
    (store : StoredChunk → Except String String)
    (filename : String) (chunks : List (List Char)) :
    ((processChunks embed store filename chunks).embedRequests = chunks
    ∧ (processChunks embed store filename chunks).chunks_created =
        ((processChunks embed store filename chunks).stored).length
    ∧ (processChunks embed store filename chunks).stored =
        succeededOf embed store filename chunks.length chunks.enum
    ∧ (processChunks embed store filename chunks).errors =
        errorsOf embed store filename chunks.length chunks.enum
    ∧ (processChunks embed store filename chunks).errors.length +
        (processChunks embed store filename chunks).chunks_created = chunks.length
    ∧ (mkIngestResult filename chunks (processChunks embed store filename chunks)).success =
        decide (0 < (processChunks embed store filename chunks).chunks_created)
    ∧ (∀ l, (mkIngestResult filename chunks (processChunks embed store filename chunks)).errors
          = some l →
        l = (processChunks embed store filename chunks).errors.take 5 ∧ l.length ≤ 5))
    ∧ ((mkIngestResult "doc.txt" exampleChunks
          (processChunks exampleEmbed exampleStore "doc.txt" exampleChunks)).chunks_created = 4
    ∧ (mkIngestResult "doc.txt" exampleChunks
          (processChunks exampleEmbed exampleStore "doc.txt" exampleChunks)).success = true
    ∧ (mkIngestResult "doc.txt" exampleChunks
          (processChunks exampleEmbed exampleStore "doc.txt" exampleChunks)).errors =
        some [chunkErrMsg 2 "doc.txt" "embedding failed"]) := by
  have hp : processChunks embed store filename chunks =
      ⟨(succeededOf embed store filename chunks.length chunks.enum).length,
       errorsOf embed store filename chunks.length chunks.enum,
       succeededOf embed store filename chunks.length chunks.enum,
       chunks.enum.map Prod.snd⟩ := by
    rw [processChunks, foldl_chunkStepF]
    simp
  refine ⟨⟨?_, ?_, ?_, ?_, ?_, ?_, ?_⟩, ?_, ?_, ?_⟩
  · rw [hp]
    exact List.enum_map_snd chunks
  · rw [hp]
  · rw [hp]
  · rw [hp]
  · rw [hp]
    show (errorsOf embed store filename chunks.length chunks.enum).length +
      (succeededOf embed store filename chunks.length chunks.enum).length = chunks.length
    have h1 := succeededOf_errorsOf_length embed store filename chunks.length chunks.enum
    have h2 : chunks.enum.length = chunks.length := List.enum_length
    omega
  · rfl
  · intro l hl
    unfold mkIngestResult at hl
    by_cases hz : (processChunks embed store filename chunks).errors = []
    · rw [if_pos hz] at hl
      exact absurd hl (by simp)
    · rw [if_neg hz] at hl
      have : (processChunks embed store filename chunks).errors.take 5 = l :=
        Option.some.inj hl
      exact ⟨this.symm, this ▸ List.length_take_le _ _⟩
  · decide
  · decide
  · decide

/-- C8: when the extracted text sanitizes to the empty string, ingestion
returns (without raising) a result with `success = false`,
`chunks_created = 0` and an explanatory error, and performs no embedding
request and no store insertion. -/
theorem ingest_empty_document (embed : List Char → Except String (List ℚ))
    (store : StoredChunk → Except String String)
    (raw : List Char) (filename : String) (cs ov : Option ℕ)
    (hsan : sanitize_input raw = []) :
    ingest_document embed store (.ok raw) filename cs ov =
      .ok (⟨0, filename, false, none, none,
            some "Document is empty or contains no valid text"⟩,
           ⟨0, [], [], []⟩) := by
  simp only [ingest_document, hsan]
  simp [pyStrip]

/-- Witness for C8: a document consisting of whitespace only. -/
theorem ingest_empty_document_witness :
    sanitize_input "  ".toList = [] ∧
    ingest_document exampleEmbed exampleStore (.ok "  ".toList) "empty.txt" none none =
      .ok (⟨0, "empty.txt", false, none, none,
            some "Document is empty or contains no valid text"⟩,
           ⟨0, [], [], []⟩) :=
  ⟨by decide,
    ingest_empty_document exampleEmbed exampleStore "  ".toList "empty.txt" none none
      (by decide)⟩

/-! ## Claim theorems: chat retrieval -/

/-- C6: if the query embedding request fails, or the similarity search
(store) fails, the retrieval step yields an empty result set and an empty
context, and the chat call proceeds to the language model with the plain
prompt instead of propagating the failure: its outcome is exactly the
outcome of the model call. -/
theorem chat_graceful_degradation (message systemPrompt : String)
    (e se : String) (qe : List ℚ)
    (generate : String → String → Except String String)
    (hmsg : ¬ (message.toList = [] ∨ pyStrip message.toList = [])) :
    (∀ search, ragRetrieve true true (.error e) search = ("", [])
      ∧ chat message true true true systemPrompt (.error e) search generate =
          (match generate message systemPrompt with
           | .ok answer => .ok ⟨answer, message⟩
           | .error ge => .error ⟨500, "Error generating response: " ++ ge⟩))
    ∧ (ragRetrieve true true (.ok qe) (fun _ => .error se) = ("", [])
      ∧ chat message true true true systemPrompt (.ok qe) (fun _ => .error se) generate =
          (match generate message systemPrompt with
           | .ok answer => .ok ⟨answer, message⟩
           | .error ge => .error ⟨500, "Error generating response: " ++ ge⟩)) := by
  constructor
  · intro search
    constructor
    · rfl
    · unfold chat
      rw [if_neg hmsg]
      simp [ragRetrieve]
  · constructor
    · rfl
    · unfold chat
      rw [if_neg hmsg]
      simp [ragRetrieve]

/-- Witness for C6: the message `"any query"` with an embedding failure and
a store failure, and a model call that succeeds. -/
theorem chat_graceful_degradation_witness :
    (¬ (("any query").toList = [] ∨ pyStrip ("any query").toList = [])) ∧
    ((∀ search, ragRetrieve true true (.error "embed down") search = ("", [])
      ∧ chat "any query" true true true "sys" (.error "embed down") search
          (fun _ _ => .ok "answer") =
          (match (fun _ _ => Except.ok "answer" :
              String → String → Except String String) "any query" "sys" with
           | .ok answer => .ok ⟨answer, "any query"⟩
           | .error ge => .error ⟨500, "Error generating response: " ++ ge⟩))
    ∧ (ragRetrieve true true (.ok [1]) (fun _ => .error "store down") = ("", [])
      ∧ chat "any query" true true true "sys" (.ok [1]) (fun _ => .error "store down")
          (fun _ _ => .ok "answer") =
          (match (fun _ _ => Except.ok "answer" :
              String → String → Except String String) "any query" "sys" with
           | .ok answer => .ok ⟨answer, "any query"⟩
           | .error ge => .error ⟨500, "Error generating response: " ++ ge⟩))) :=
  ⟨by decide,
    chat_graceful_degradation "any query" "sys" "embed down" "store down" [1]
      (fun _ _ => .ok "answer") (by decide)⟩

end RagChatbot
